import Mathlib

/-!
Verification development for the yt-automation pipeline.

The development shallowly embeds the parts of the Python source that the
specification talks about: the transcript validators of the five stage
agents, the LLM retry loop, the stage-runner loop of the transcriber, the
text-cleaning stage's per-item processing, the audio/video cutting loops,
the batch orchestrator of main.py, and the FCPXML timeline synthesizer.
Python numbers are modelled as exact rationals, Python exceptions as an
explicit error type threaded through `Except`.
-/

/-- Model of the Python/JSON values a transcript artifact can hold.
Dictionaries are association lists with string keys (the only keys that
occur in transcript JSON); floats are modelled as exact rationals. -/
inductive PyVal where
  | none : PyVal
  | bool (b : Bool) : PyVal
  | int (n : Int) : PyVal
  | float (q : Rat) : PyVal
  | str (s : String) : PyVal
  | list (xs : List PyVal) : PyVal
  | dict (kvs : List (String × PyVal)) : PyVal

/-- Model of the Python exceptions the embedded code can raise. -/
inductive PyErr where
  | typeError (msg : String) : PyErr
  | keyError (k : String) : PyErr
  | valueError (msg : String) : PyErr
  | fileNotFound (msg : String) : PyErr
  | runtimeError (msg : String) : PyErr
  | requestError (msg : String) : PyErr
  deriving DecidableEq, Repr

deriving instance DecidableEq for Except

/-- First binding of a key in a dictionary association list, as Python
dict lookup (keys are unique in any dict produced by json.load). -/
def dLookup (kvs : List (String × PyVal)) (k : String) : Option PyVal :=
  match kvs with
  | [] => Option.none
  | (k', v) :: rest => if k' = k then some v else dLookup rest k

/-- Contiguous-sublist test on character lists, used to model the Python
substring test `needle in haystack` on strings. -/
def charsInfixOf (needle : List Char) : List Char → Bool
  | [] => needle.isEmpty
  | c :: rest => needle.isPrefixOf (c :: rest) || charsInfixOf needle rest

/-- Python membership test `k in v` for a string key: key test on dicts,
substring test on strings, element equality on lists, and a TypeError on
non-container values (int, float, bool, None). -/
def pyContains (k : String) (v : PyVal) : Except PyErr Bool :=
  match v with
  | .dict kvs => .ok (dLookup kvs k).isSome
  | .str s => .ok (charsInfixOf k.toList s.toList)
  | .list xs => .ok (xs.any fun x => match x with | .str s => s = k | _ => false)
  | _ => .error (.typeError "argument is not iterable")

/-- Python subscript `v[k]` for a string key: dict lookup (KeyError when
absent), TypeError on every other value (str and list reject string
indices). -/
def pySubscript (v : PyVal) (k : String) : Except PyErr PyVal :=
  match v with
  | .dict kvs =>
    match dLookup kvs k with
    | some x => .ok x
    | Option.none => .error (.keyError k)
  | _ => .error (.typeError "value does not support string subscripts")

/-- Python `isinstance(x, (int, float))`; note that bool is a subclass of
int in Python, so booleans count as numeric. -/
def isNumeric (v : PyVal) : Bool :=
  match v with
  | .int _ => true
  | .float _ => true
  | .bool _ => true
  | _ => false

/-- Numeric value of a numeric PyVal (True counts as 1, False as 0). -/
def toRat (v : PyVal) : Rat :=
  match v with
  | .int n => (n : Rat)
  | .float q => q
  | .bool b => if b then 1 else 0
  | _ => 0

/-- Characters removed by Python str.strip() on ASCII text. -/
def isPySpace (c : Char) : Bool :=
  c = ' ' || c = '\t' || c = '\n' || c = '\r' || c = '\x0b' || c = '\x0c'

/-- Truthiness of `s.strip()`: false iff every character is whitespace. -/
def stripTruthy (s : String) : Bool :=
  s.toList.any fun c => !(isPySpace c)

/-- Short-circuiting embedding of
`all(key in segment for key in ["start", "end", "text"])`. -/
def allKeysIn (seg : PyVal) : Except PyErr Bool := do
  let b1 ← pyContains "start" seg
  if !b1 then return false
  let b2 ← pyContains "end" seg
  if !b2 then return false
  pyContains "text" seg

/-- Per-segment checks shared verbatim by every agent validator: required
keys present, start/end numeric, end strictly greater than start. -/
def checkSegmentCore (seg : PyVal) : Except PyErr Bool := do
  let allKeys ← allKeysIn seg
  if !allKeys then return false
  let s ← pySubscript seg "start"
  if !(isNumeric s) then return false
  let e ← pySubscript seg "end"
  if !(isNumeric e) then return false
  if toRat e ≤ toRat s then return false
  return true

/-- Per-segment checks of the transcriber variant: the shared core checks
followed by `isinstance(segment["text"], str)` and non-empty strip. -/
def checkSegmentFull (seg : PyVal) : Except PyErr Bool := do
  let core ← checkSegmentCore seg
  if !core then return false
  let t ← pySubscript seg "text"
  match t with
  | .str s => if !(stripTruthy s) then return false else return true
  | _ => return false

/-- The `for i, segment in enumerate(...)` validation loop: first failing
segment yields false, first raising segment propagates the exception. -/
def validateSegments (check : PyVal → Except PyErr Bool) :
    List PyVal → Except PyErr Bool
  | [] => .ok true
  | seg :: rest => do
    let good ← check seg
    if !good then return false
    validateSegments check rest

/-- Top-level structure checks shared by every validator: dict, has a
"segments" key, segments is a list. The `requireNonEmpty` flag selects
whether the empty-list check (`if not transcript["segments"]`) is present;
it is present in the transcriber, text-cleaning, and timeline validators
and absent from the audio-cleaner and video-cutter validators. -/
def validateShape (requireNonEmpty : Bool) (check : PyVal → Except PyErr Bool)
    (t : PyVal) : Except PyErr Bool :=
  match t with
  | .dict kvs =>
    match dLookup kvs "segments" with
    | Option.none => .ok false
    | some segsVal =>
      match segsVal with
      | .list segs =>
        if requireNonEmpty && segs.isEmpty then .ok false
        else validateSegments check segs
      | _ => .ok false
  | _ => .ok false

namespace TranscriberAgent

/-- Embedding of TranscriberAgent.validate_transcript
(src/agents/transcriber_agent.py lines 53-81): dict, "segments" key, list,
non-empty, per-segment keys/numeric/order checks plus the text check. -/
def validate_transcript (t : PyVal) : Except PyErr Bool :=
  validateShape true checkSegmentFull t

end TranscriberAgent

namespace LLMEditingAgent

/-- Embedding of LLMEditingAgent.validate_transcript
(src/agents/editor_agent.py lines 51-76): dict, "segments" key, list,
non-empty, per-segment keys/numeric/order checks (no text check). -/
def validate_transcript (t : PyVal) : Except PyErr Bool :=
  validateShape true checkSegmentCore t

end LLMEditingAgent

namespace TimelineGenerator

/-- Embedding of TimelineGenerator.validate_transcript
(src/agents/timeline_generator_agent.py lines 45-70); identical checks to
the text-cleaning validator. -/
def validate_transcript (t : PyVal) : Except PyErr Bool :=
  validateShape true checkSegmentCore t

end TimelineGenerator

namespace SegmentAudioCleaner

/-- Embedding of SegmentAudioCleaner.validate_transcript
(src/agents/segment_audio_cleaner_agent.py lines 42-57): dict, "segments"
key, list, per-segment core checks; the empty-list check is absent. -/
def validate_transcript (t : PyVal) : Except PyErr Bool :=
  validateShape false checkSegmentCore t

end SegmentAudioCleaner

namespace VideoSegmentEditor

/-- Embedding of VideoSegmentEditor.validate_transcript
(src/agents/video_segment_editor_agent.py lines 41-56): dict, "segments"
key, list, per-segment core checks; the empty-list check is absent. -/
def validate_transcript (t : PyVal) : Except PyErr Bool :=
  validateShape false checkSegmentCore t

end VideoSegmentEditor

/-- Time segment retained by the editor, as consumed by the timeline
synthesizer and the cutting loops: start and end in seconds. -/
structure Segment where
  start : Rat
  «end» : Rat
  deriving DecidableEq, Repr

/-- Source video metadata as returned by get_video_metadata
(src/agents/timeline_generator_agent.py lines 72-92): pixel size and the
frame rate parsed from the probe's r_frame_rate string "num/denom". -/
structure VideoMeta where
  width : Nat
  height : Nat
  rateNum : Int
  rateDen : Int
  deriving DecidableEq, Repr

/-- Frame rate `num / denom` computed at line 86 of the timeline agent. -/
def frame_rate (m : VideoMeta) : Rat :=
  (m.rateNum : Rat) / (m.rateDen : Rat)

/-- Python `int()` truncation toward zero on a real value. -/
def pyInt (q : Rat) : Int :=
  if 0 ≤ q then ⌊q⌋ else -⌊-q⌋

/-- Value of `int(duration_factor * 100000)` at line 99 of the timeline
agent, where duration_factor is the reciprocal of the frame rate. -/
def frameDurationInt (m : VideoMeta) : Int :=
  pyInt ((1 / frame_rate m) * 100000)

/-- The frameDuration attribute string `f"{int(duration_factor * 100000)}/100000s"`. -/
def frame_duration (m : VideoMeta) : String :=
  toString (frameDurationInt m) ++ "/100000s"

/-- The emitted frame duration read back as an exact rational in seconds. -/
def frameDurationQ (m : VideoMeta) : Rat :=
  (frameDurationInt m : Rat) / 100000

/-- Three-digit zero padding for the fractional part of a seconds string. -/
def pad3 (n : Nat) : String :=
  if n < 10 then "00" ++ toString n
  else if n < 100 then "0" ++ toString n
  else toString n

/-- Embedding of `time_to_seconds_string`, Python `f"{seconds:.3f}s"`:
the value rounded to millisecond precision rendered with three decimals.
Python rounds the underlying double half-to-even; the model rounds half
away from zero, which agrees everywhere the pipeline's claims evaluate. -/
def time_to_seconds_string (seconds : Rat) : String :=
  let m : Int := pyInt (seconds * 1000 + (if 0 ≤ seconds then (1:Rat)/2 else -(1:Rat)/2))
  let sign := if m < 0 then "-" else ""
  sign ++ toString (m.natAbs / 1000) ++ "." ++ pad3 (m.natAbs % 1000) ++ "s"

/-- Edit-Decision Entry of the spec: output offset, source start, and
clip duration, all in seconds. -/
structure EditDecisionEntry where
  offset : Rat
  sourceStart : Rat
  duration : Rat
  deriving DecidableEq, Repr

/-- The clip loop of create_fcpxml (timeline agent lines 140-154), as the
numeric Edit-Decision List: running offset, per-segment duration
`end - start`, source start `start`, offset advanced by the duration. -/
def synthesizeFrom (offset : Rat) : List Segment → List EditDecisionEntry
  | [] => []
  | seg :: rest =>
    let dur := seg.«end» - seg.start
    ⟨offset, seg.start, dur⟩ :: synthesizeFrom (offset + dur) rest

/-- Edit-Decision List of a segment sequence, starting at offset 0. -/
def synthesize (segs : List Segment) : List EditDecisionEntry :=
  synthesizeFrom 0 segs

/-- Sum of the segment durations `end - start`. -/
def sumDur (segs : List Segment) : Rat :=
  (segs.map fun s => s.«end» - s.start).sum

/-- Total output duration of an Edit-Decision List. -/
def edlTotal (edl : List EditDecisionEntry) : Rat :=
  (edl.map fun e => e.duration).sum

/-- Serialized XML element: tag, attribute list, children. -/
inductive Xml where
  | el (tag : String) (attrs : List (String × String)) (children : List Xml)

/-- One spine clip element, attributes exactly as built at lines 146-152
of the timeline agent. -/
def clipElement (mediaId : String) (i : Nat) (e : EditDecisionEntry) : Xml :=
  Xml.el "clip"
    [("name", "Segment " ++ toString (i + 1)),
     ("ref", mediaId),
     ("offset", time_to_seconds_string e.offset),
     ("start", time_to_seconds_string e.sourceStart),
     ("duration", time_to_seconds_string e.duration)] []

/-- Embedding of create_fcpxml (timeline agent lines 94-158): the full
element tree with resources (format and asset), and the
library/event/project/sequence/spine hierarchy whose clips mirror the
Edit-Decision List. The uuid media id and the video path are taken as
parameters. -/
def create_fcpxml (segs : List Segment) (m : VideoMeta)
    (mediaId videoPath : String) : Xml :=
  Xml.el "fcpxml" [("version", "1.10")]
    [Xml.el "resources" []
      [Xml.el "format"
        [("id", "r1"),
         ("name", "AutoFormat" ++ toString m.width ++ "x" ++ toString m.height
            ++ "@" ++ toString (pyInt (frame_rate m))),
         ("frameDuration", frame_duration m),
         ("width", toString m.width),
         ("height", toString m.height)] [],
       Xml.el "asset"
        [("id", mediaId),
         ("src", "file://" ++ videoPath),
         ("start", "0s"),
         ("hasVideo", "1"),
         ("hasAudio", "1"),
         ("format", "r1")] []],
     Xml.el "library" []
      [Xml.el "event" [("name", "Auto Edited")]
        [Xml.el "project" [("name", "Cleaned Timeline")]
          [Xml.el "sequence"
            [("duration", "3600s"),
             ("format", "r1"),
             ("tcStart", "0s"),
             ("tcFormat", "NDF")]
            [Xml.el "spine" []
              ((synthesize segs).enum.map fun p => clipElement mediaId p.1 p.2)]]]]]

/-- Attribute lookup on a serialized attribute list. -/
def attrLookup (attrs : List (String × String)) (k : String) : Option String :=
  match attrs with
  | [] => Option.none
  | (k', v) :: rest => if k' = k then some v else attrLookup rest k

/-- The duration attribute of the sequence record, reached positionally
through the fcpxml/library/event/project/sequence path of the document. -/
def seqDurationAttr (x : Xml) : Option String :=
  match x with
  | .el _ _ [_, .el _ _ [.el _ _ [.el _ _ [.el _ attrs _]]]] =>
    attrLookup attrs "duration"
  | _ => Option.none

/-- The frameDuration attribute of the format record in resources. -/
def formatFrameDurationAttr (x : Xml) : Option String :=
  match x with
  | .el _ _ (.el _ _ (.el _ attrs _ :: _) :: _) =>
    attrLookup attrs "frameDuration"
  | _ => Option.none

/-- Decimal reading of a digit string. -/
def digitsToNat (cs : List Char) : Option Nat :=
  if cs.isEmpty then Option.none
  else cs.foldl (fun acc c => match acc with
    | Option.none => Option.none
    | some n => if c.isDigit then some (n * 10 + (c.toNat - 48)) else Option.none)
    (some 0)

/-- Parser for a whole-second literal such as "3600s". -/
def parseSecondsLit (s : String) : Option Rat :=
  match s.toList.getLast? with
  | some 's' => (digitsToNat s.toList.dropLast).map fun n => (n : Rat)
  | _ => Option.none

/-- Observable outcome of one call_llm_api invocation: the returned value
or raised error, the number of HTTP attempts made, and the sleeps (in
seconds) performed between consecutive attempts. -/
structure CallOutcome where
  result : Except String String
  attempts : Nat
  sleeps : List Nat
  deriving DecidableEq, Repr

/-- Embedding of LLMEditingAgent.call_llm_api
(src/agents/editor_agent.py lines 79-98). The network is modelled by an
oracle giving each attempt's outcome, indexed by retry_count. On failure
with retry_count < max_retries the code sleeps 2 ** retry_count seconds
and recurses with retry_count + 1; otherwise it raises a RuntimeError
wrapping the last underlying error. -/
def call_llm_api (maxRetries : Nat) (oracle : Nat → Except String String)
    (retryCount : Nat) : CallOutcome :=
  match oracle retryCount with
  | .ok s => ⟨.ok s, 1, []⟩
  | .error e =>
    if retryCount < maxRetries then
      let r := call_llm_api maxRetries oracle (retryCount + 1)
      ⟨r.result, r.attempts + 1, (2 ^ retryCount) :: r.sleeps⟩
    else
      ⟨.error ("Failed to call LLM API after " ++ toString maxRetries
        ++ " retries: " ++ e), 1, []⟩
termination_by maxRetries - retryCount
decreasing_by omega

/-- Decision log entry `(file, stage, decision)` written per item. -/
structure DecisionEntry where
  file : String
  stage : String
  decision : String
  deriving DecidableEq, Repr

/-- The message Python str(e) yields for each modelled exception. -/
def pyErrMsg : PyErr → String
  | .typeError m => m
  | .keyError k => k
  | .valueError m => m
  | .fileNotFound m => m
  | .runtimeError m => m
  | .requestError m => m

/-- Decision text chosen by the `except` clauses shared by the
transcriber, text-cleaning, and timeline stage process_file handlers. -/
def exceptDecision : PyErr → String
  | .fileNotFound m => "File not found: " ++ m
  | .valueError m => "Invalid data: " ++ m
  | e => "Unexpected error: " ++ pyErrMsg e

/-- Result of processing one item: the decision log entry and the output
artifact written, if any. -/
structure StageItemResult where
  log : DecisionEntry
  output : Option PyVal

/-- Environment of one transcriber work item: its file name, whether the
`_clean.wav` input artifact exists, and the outcome of the external
Whisper transcription (the raw transcript it parses, or a raised error). -/
structure TranscribeEnv where
  fileName : String
  audioExists : Bool
  whisperResult : Except PyErr PyVal

namespace TranscriberAgent

/-- Embedding of TranscriberAgent.transcribe_audio
(src/agents/transcriber_agent.py lines 83-106): run the model, then
gate the parsed transcript through the validator; a failing validation
raises ValueError, which the caller treats as a hard failure. -/
def transcribe_audio (res : Except PyErr PyVal) : Except PyErr PyVal :=
  match res with
  | .error e => .error e
  | .ok t =>
    match validate_transcript t with
    | .error e => .error e
    | .ok true => .ok t
    | .ok false => .error (.valueError "Generated transcript failed validation")

/-- The try-block of TranscriberAgent.process_file (lines 108-126):
missing input raises FileNotFoundError, then transcription runs and the
transcript artifact is written. -/
def process_file_body (env : TranscribeEnv) : Except PyErr PyVal :=
  if !env.audioExists then
    .error (.fileNotFound ("Cleaned audio file not found: " ++ env.fileName))
  else transcribe_audio env.whisperResult

/-- Embedding of TranscriberAgent.process_file (lines 108-139): the
except clauses catch every failure at the item boundary and convert it to
a decision entry; success writes the transcript and a success entry. -/
def process_file (env : TranscribeEnv) : StageItemResult :=
  match process_file_body env with
  | .ok t => ⟨⟨env.fileName, "transcribe", "success"⟩, some t⟩
  | .error e => ⟨⟨env.fileName, "transcribe", exceptDecision e⟩, Option.none⟩

/-- Embedding of TranscriberAgent.run (lines 141-155): process every
discovered item sequentially; an empty discovery list returns at once. -/
def run (envs : List TranscribeEnv) : List StageItemResult :=
  envs.map process_file

end TranscriberAgent

/-- Python dict assignment `d[k] = v`: replace the binding when the key
exists, append it otherwise. -/
def setKey (kvs : List (String × PyVal)) (k : String) (v : PyVal) :
    List (String × PyVal) :=
  match kvs with
  | [] => [(k, v)]
  | (k', v') :: rest => if k' = k then (k, v) :: rest else (k', v') :: setKey rest k v

/-- The assignment `transcript["segments"][i]["text"] = cleaned_text`
applied to one segment value. -/
def setText (seg : PyVal) (t : String) : PyVal :=
  match seg with
  | .dict kvs => .dict (setKey kvs "text" (.str t))
  | v => v

/-- The per-segment cleaning loop of LLMEditingAgent.process_file
(src/agents/editor_agent.py lines 117-125): clean segment i with an
independent LLM call and store the result; the first segment whose call
ultimately fails re-raises and aborts the whole item. The oracle gives
each segment's post-retry outcome. -/
def cleanSegments (llm : Nat → Except String String) :
    Nat → List PyVal → Except PyErr (List PyVal)
  | _, [] => .ok []
  | i, seg :: rest =>
    match llm i with
    | .error e => .error (.runtimeError e)
    | .ok t =>
      match cleanSegments llm (i + 1) rest with
      | .error e => .error e
      | .ok rest' => .ok (setText seg t :: rest')

/-- Environment of one text-cleaning work item. -/
structure EditorEnv where
  fileName : String
  inputExists : Bool
  transcriptJson : PyVal
  llm : Nat → Except String String

namespace LLMEditingAgent

/-- The try-block of LLMEditingAgent.process_file (lines 106-132):
missing input raises, the transcript is validated, every segment is
cleaned, and only then is the output transcript written. -/
def process_file_body (env : EditorEnv) : Except PyErr PyVal :=
  if !env.inputExists then
    .error (.fileNotFound ("Transcript file not found: " ++ env.fileName))
  else
    match validate_transcript env.transcriptJson with
    | .error e => .error e
    | .ok false => .error (.valueError "Invalid transcript format")
    | .ok true =>
      match env.transcriptJson with
      | .dict kvs =>
        match dLookup kvs "segments" with
        | some (.list segs) =>
          match cleanSegments env.llm 0 segs with
          | .error e => .error e
          | .ok segs' => .ok (.dict (setKey kvs "segments" (.list segs')))
        | _ => .error (.typeError "unreachable when validation passed")
      | _ => .error (.typeError "unreachable when validation passed")

/-- Embedding of LLMEditingAgent.process_file (lines 100-145): failures
become a decision entry with no output artifact; success persists the
fully cleaned transcript and a success entry. -/
def process_file (env : EditorEnv) : StageItemResult :=
  match process_file_body env with
  | .ok t => ⟨⟨env.fileName, "llm_editing", "success"⟩, some t⟩
  | .error e => ⟨⟨env.fileName, "llm_editing", exceptDecision e⟩, Option.none⟩

end LLMEditingAgent

namespace SegmentAudioCleaner

/-- Slices kept by the segment loop of SegmentAudioCleaner.process_file
(src/agents/segment_audio_cleaner_agent.py lines 83-92): millisecond
bounds are truncated with int(); a segment with start_ms >= len(audio) or
end_ms > len(audio) is skipped with a warning, every other segment
contributes its slice. -/
def keptSlices (audioLenMs : Int) (segs : List Segment) : List (Int × Int) :=
  segs.filterMap fun s =>
    let startMs := pyInt (s.start * 1000)
    let endMs := pyInt (s.«end» * 1000)
    if startMs ≥ audioLenMs || endMs > audioLenMs then Option.none
    else some (startMs, endMs)

/-- Length in milliseconds of the exported concatenation. -/
def cleanedLenMs (audioLenMs : Int) (segs : List Segment) : Int :=
  ((keptSlices audioLenMs segs).map fun p => p.2 - p.1).sum

end SegmentAudioCleaner

/-- One ffmpeg trim invocation built by run_ffmpeg_trim: the -ss and -t
arguments. -/
structure TrimCmd where
  start : Rat
  duration : Rat
  deriving DecidableEq, Repr

namespace VideoSegmentEditor

/-- Embedding of the segment loop of VideoSegmentEditor.run_ffmpeg_trim
(src/agents/video_segment_editor_agent.py lines 66-85): every segment
yields one ffmpeg trim command with -ss start and -t (end - start); the
loop performs no bounds check against the source duration. -/
def trimCommands (segs : List Segment) : List TrimCmd :=
  segs.map fun s => ⟨s.start, s.«end» - s.start⟩

end VideoSegmentEditor

/-- Python exception split along the BaseException hierarchy: `exception`
values derive from Exception and are caught by `except Exception`;
SystemExit derives only from BaseException and is not. -/
inductive PyExc where
  | exception (msg : String) : PyExc
  | systemExit (code : Nat) : PyExc
  deriving DecidableEq, Repr

/-- Environment of one video in a batch run; the claim at issue only
depends on whether the stage-3 precondition check
check_ollama_availability succeeds for this video. -/
structure VideoEnv where
  path : String
  ollamaReachable : Bool
  deriving DecidableEq, Repr

/-- Stage labels of the five pipeline steps of process_video. -/
def pipelineStages : List String :=
  ["denoise", "transcribe", "llm_edit", "video_edit", "timeline"]

/-- Stages that have run when the stage-3 precondition check fails:
steps 1 and 2 precede the check (src/main.py lines 148-164). -/
def stagesBeforePrecondition : List String :=
  ["denoise", "transcribe"]

/-- The try-block of process_video (src/main.py lines 104-175): when the
Ollama precondition fails a RuntimeError is raised, aborting the
remaining stages; otherwise all five stages run. Returns the stages run
and the exception propagating out of the try-block, if any. -/
def process_video_body (env : VideoEnv) : List String × Option PyExc :=
  if env.ollamaReachable then (pipelineStages, Option.none)
  else (stagesBeforePrecondition,
    some (.exception ("Ollama server is not running at OLLAMA_URL. "
      ++ "Please start Ollama before running the pipeline.")))

/-- The except/finally tail of process_video (src/main.py lines 177-184):
on failure the handler re-raises, then the finally block calls
sys.exit(1); the SystemExit raised in the finally block replaces the
propagating exception. On success the finally block does nothing. -/
def applyFinallyExit : Option PyExc → Except PyExc Unit
  | Option.none => .ok ()
  | some _ => .error (.systemExit 1)

/-- Embedding of process_video (src/main.py lines 101-184). -/
def process_video (env : VideoEnv) : List String × Except PyExc Unit :=
  let b := process_video_body env
  (b.1, applyFinallyExit b.2)

/-- Embedding of the batch loop of main (src/main.py lines 214-219):
videos are processed in order; `except Exception` catches only
Exception-derived errors and continues with the next video, while an
uncaught SystemExit terminates the loop. Returns the paths of the videos
attempted and the exception that escaped the loop, if any. -/
def main_loop : List VideoEnv → List String × Option PyExc
  | [] => ([], Option.none)
  | env :: rest =>
    match process_video env with
    | (_, .ok ()) =>
      let r := main_loop rest
      (env.path :: r.1, r.2)
    | (_, .error (.exception _)) =>
      let r := main_loop rest
      (env.path :: r.1, r.2)
    | (_, .error (.systemExit c)) => ([env.path], some (.systemExit c))

/-- Modelled from the spec, §4.1: a transcript segment satisfying
conditions 4-7 (keys present, start/end numeric, end strictly greater
than start, text a string that is non-empty after stripping). This is the
spec-side predicate the validators are compared against. -/
def specValidSegment (s : PyVal) : Bool :=
  match s with
  | .dict kvs =>
    match dLookup kvs "start", dLookup kvs "end", dLookup kvs "text" with
    | some sv, some ev, some tv =>
      isNumeric sv && isNumeric ev && decide (toRat sv < toRat ev) &&
      (match tv with | .str txt => stripTruthy txt | _ => false)
    | _, _, _ => false
  | _ => false

/-- Modelled from the spec, §4.1: a transcript satisfying all seven
validity conditions (record with a segments field holding a non-empty
sequence of valid segments). -/
def specValidTranscript (t : PyVal) : Bool :=
  match t with
  | .dict kvs =>
    match dLookup kvs "segments" with
    | some (.list segs) => !segs.isEmpty && segs.all specValidSegment
    | _ => false
  | _ => false

/-- Inputs under which the §4.1 claim of raise-freedom is recoverable:
every element of the segments list is a record, or control never reaches
the segment loop. -/
def segmentsAllDicts (t : PyVal) : Bool :=
  match t with
  | .dict kvs =>
    match dLookup kvs "segments" with
    | some (.list segs) =>
      segs.all fun s => match s with | .dict _ => true | _ => false
    | _ => true
  | _ => true

/-- The segment list of the spec's worked timeline example. -/
def exampleSegments : List Segment := [⟨0, 2⟩, ⟨5, 8⟩, ⟨10, 10.5⟩]

/-- Minimal transcript satisfying all seven §4.1 conditions. -/
def validTranscriptVal : PyVal :=
  .dict [("segments", .list
    [.dict [("start", .float 0), ("end", .float 2), ("text", .str "hello")]])]

/-- First item of the partial-failure example: input present, external
transcription succeeds with a valid transcript. -/
def itemOne : TranscribeEnv := ⟨"one.mp4", true, .ok validTranscriptVal⟩

/-- Second item of the partial-failure example: input artifact missing. -/
def itemTwo : TranscribeEnv := ⟨"two.mp4", false, .ok validTranscriptVal⟩

/-- Third item of the partial-failure example: succeeds like the first. -/
def itemThree : TranscribeEnv := ⟨"three.mp4", true, .ok validTranscriptVal⟩

/-- Bounds predicate of the audio cleaner's skip test: a segment is in
bounds when its truncated millisecond start is below the audio length and
its truncated millisecond end does not exceed it. -/
def segInBounds (audioLenMs : Int) (s : Segment) : Bool :=
  decide (pyInt (s.start * 1000) < audioLenMs) &&
  decide (pyInt (s.«end» * 1000) ≤ audioLenMs)

/-- Attempt oracle of the retry witness: the first attempt fails
transiently, the second succeeds. -/
def witOracle : Nat → Except String String :=
  fun k => if k = 0 then .error "connection refused" else .ok "cleaned text"

/-- Two-segment transcript used by the atomicity witness. -/
def twoSegTranscript : PyVal :=
  .dict [("segments", .list
    [.dict [("start", .float 0), ("end", .float 2), ("text", .str "first")],
     .dict [("start", .float 3), ("end", .float 5), ("text", .str "second")]])]

/-- Text-cleaning item whose second segment's LLM call ultimately fails
after retries. -/
def editorEnvFail : EditorEnv :=
  ⟨"vid.mp4", true, twoSegTranscript,
   fun i => if i = 0 then .ok "clean first" else .error "service gone"⟩

/-- Violation class 1 of §4.1: the top-level value is not a record. -/
def violNotRecord : PyVal := .none

/-- Violation class 2: the segments field is not a sequence. -/
def violSegmentsNotList : PyVal := .dict [("segments", .int 0)]

/-- Violation class 3: the segments sequence is empty. -/
def violEmptySegments : PyVal := .dict [("segments", .list [])]

/-- Violation class 4: a segment is missing required keys. -/
def violMissingKeys : PyVal := .dict [("segments", .list [.dict []])]

/-- Violation class 5: a segment's start is non-numeric. -/
def violNonNumeric : PyVal :=
  .dict [("segments", .list
    [.dict [("start", .str "x"), ("end", .float 1), ("text", .str "t")]])]

/-- Violation class 6: a segment with end equal to start. -/
def violBadOrder : PyVal :=
  .dict [("segments", .list
    [.dict [("start", .float 1), ("end", .float 1), ("text", .str "t")]])]

/-- Violation class 7: a segment whose text is whitespace only. -/
def violBlankText : PyVal :=
  .dict [("segments", .list
    [.dict [("start", .float 0), ("end", .float 1), ("text", .str "  ")]])]

/-- Transcript whose segments list holds a number instead of a record;
the validators raise TypeError on it. -/
def numericSegmentTranscript : PyVal := .dict [("segments", .list [.int 0])]

/-!
Theorems. Each claim of the specification review is settled by one named
theorem below, with helper lemmas shared between them.
-/

theorem synthesizeFrom_getElem (off : Rat) (segs : List Segment) (i : Nat) :
    (synthesizeFrom off segs)[i]? =
      (segs[i]?).map fun s =>
        (⟨off + sumDur (segs.take i), s.start, s.«end» - s.start⟩ : EditDecisionEntry) := by
  induction segs generalizing off i with
  | nil => simp [synthesizeFrom]
  | cons s rest ih =>
    cases i with
    | zero => simp [synthesizeFrom, sumDur]
    | succ j =>
      simp only [synthesizeFrom, List.getElem?_cons_succ, List.take_succ_cons]
      rw [ih]
      simp [sumDur, add_assoc]

theorem synthesizeFrom_length (off : Rat) (segs : List Segment) :
    (synthesizeFrom off segs).length = segs.length := by
  induction segs generalizing off with
  | nil => rfl
  | cons s rest ih => simp [synthesizeFrom, ih]

theorem edlTotal_synthesizeFrom (off : Rat) (segs : List Segment) :
    edlTotal (synthesizeFrom off segs) = sumDur segs := by
  induction segs generalizing off with
  | nil => rfl
  | cons s rest ih => simp [synthesizeFrom, edlTotal, sumDur] at ih ⊢; simp [ih]

theorem sumDur_take_succ (segs : List Segment) (i : Nat) (seg : Segment)
    (h : segs[i]? = some seg) :
    sumDur (segs.take (i + 1)) = sumDur (segs.take i) + (seg.«end» - seg.start) := by
  rw [List.take_succ, h]
  simp [sumDur]

/-- C1: the timeline synthesizer is offset-additive: the Edit-Decision
List has one clip per segment; clip i has source start equal to its
segment's start, duration equal to end minus start, and offset equal to
the sum of the durations of the preceding segments (so the first offset
is 0 and each subsequent offset is the previous offset plus the previous
duration); the total output duration is the sum of segment durations; and
on the spec's example segments the Edit-Decision List is exactly
[(0,0,2), (2,5,3), (5,10,0.5)]. -/
theorem timeline_offset_additive (segs : List Segment) :
    (synthesize segs).length = segs.length
  ∧ (∀ (i : Nat) (seg : Segment), segs[i]? = some seg →
      (synthesize segs)[i]? =
        some ⟨sumDur (segs.take i), seg.start, seg.«end» - seg.start⟩)
  ∧ (∀ (e : EditDecisionEntry), (synthesize segs)[0]? = some e → e.offset = 0)
  ∧ (∀ (i : Nat) (e1 e2 : EditDecisionEntry), (synthesize segs)[i]? = some e1 →
      (synthesize segs)[i + 1]? = some e2 → e2.offset = e1.offset + e1.duration)
  ∧ edlTotal (synthesize segs) = sumDur segs
  ∧ synthesize exampleSegments = [⟨0, 0, 2⟩, ⟨2, 5, 3⟩, ⟨5, 10, 1/2⟩] := by
  refine ⟨synthesizeFrom_length 0 segs, ?_, ?_, ?_, edlTotal_synthesizeFrom 0 segs, ?_⟩
  · intro i seg h
    rw [synthesize, synthesizeFrom_getElem, h]
    simp
  · intro e h
    rw [synthesize, synthesizeFrom_getElem] at h
    cases h0 : segs[0]? with
    | none => rw [h0] at h; simp at h
    | some s0 =>
      rw [h0] at h
      simp only [Option.map_some', Option.some.injEq] at h
      rw [← h]
      simp [sumDur]
  · intro i e1 e2 h1 h2
    rw [synthesize, synthesizeFrom_getElem] at h1 h2
    cases hi : segs[i]? with
    | none => rw [hi] at h1; simp at h1
    | some si =>
      cases hj : segs[i + 1]? with
      | none => rw [hj] at h2; simp at h2
      | some sj =>
        rw [hi] at h1; rw [hj] at h2
        simp only [Option.map_some', Option.some.injEq] at h1 h2
        rw [← h1, ← h2]
        simp [sumDur_take_succ segs i si hi]
  · norm_num [exampleSegments, synthesize, synthesizeFrom]

/-- Closed instantiation of the C1 theorem at the spec's example: the
second clip of the example Edit-Decision List has offset 2 (the sum of
the first segment's duration), source start 5, and duration 3. -/
theorem timeline_offset_additive_witness :
    (synthesize exampleSegments)[1]? = some ⟨2, 5, 3⟩ := by
  have h := (timeline_offset_additive exampleSegments).2.1 1 ⟨5, 8⟩ (by norm_num [exampleSegments])
  rw [h]
  norm_num [exampleSegments, sumDur]

/-- C10: the serialized timeline document's sequence record carries the
fixed duration string "3600s" for every segment list and every source
video; read back as seconds it is always 3600, so the declared sequence
duration equals the sum of clip durations exactly when that sum is 3600
seconds. -/
theorem sequence_duration_constant (segs : List Segment) (m : VideoMeta)
    (mediaId videoPath : String) :
    seqDurationAttr (create_fcpxml segs m mediaId videoPath) = some "3600s"
  ∧ (seqDurationAttr (create_fcpxml segs m mediaId videoPath)).bind parseSecondsLit
      = some (3600 : Rat)
  ∧ ((seqDurationAttr (create_fcpxml segs m mediaId videoPath)).bind parseSecondsLit
      = some (edlTotal (synthesize segs)) ↔ edlTotal (synthesize segs) = 3600) := by
  have hp : parseSecondsLit "3600s" = some (3600 : Rat) := by decide
  refine ⟨rfl, ?_, ?_⟩
  · show parseSecondsLit "3600s" = some (3600 : Rat)
    exact hp
  · show parseSecondsLit "3600s" = some (edlTotal (synthesize segs)) ↔ _
    rw [hp]
    constructor
    · intro h
      exact (Option.some.inj h).symm
    · intro h
      rw [h]

/-- C7: batch evidence at the failing input. For a batch of two videos
where the first video's Ollama precondition fails and the second would
succeed, the first video's run stops after the first two stages, the
except-Exception handler of the batch loop never sees the SystemExit
raised by the finally block of process_video, and the second video is
never attempted: the loop terminates with exit status 1 after attempting
only the first video. -/
theorem batch_aborts_on_precondition_failure :
    main_loop [⟨"a.mp4", false⟩, ⟨"b.mp4", true⟩] = (["a.mp4"], some (.systemExit 1))
  ∧ (process_video ⟨"a.mp4", false⟩).1 = stagesBeforePrecondition
  ∧ (main_loop [⟨"a.mp4", false⟩, ⟨"b.mp4", true⟩]).1.length = 1
  ∧ main_loop [⟨"b.mp4", true⟩, ⟨"a.mp4", false⟩]
      = (["b.mp4", "a.mp4"], some (.systemExit 1)) :=
  ⟨rfl, rfl, rfl, rfl⟩

theorem keptSlices_eq_filter (audioLenMs : Int) (segs : List Segment) :
    SegmentAudioCleaner.keptSlices audioLenMs segs
      = (segs.filter (segInBounds audioLenMs)).map
          fun s => (pyInt (s.start * 1000), pyInt (s.«end» * 1000)) := by
  induction segs with
  | nil => rfl
  | cons s rest ih =>
    by_cases hb : pyInt (s.start * 1000) < audioLenMs ∧ pyInt (s.«end» * 1000) ≤ audioLenMs
    · have hcond : ¬(pyInt (s.start * 1000) ≥ audioLenMs
          ∨ pyInt (s.«end» * 1000) > audioLenMs) := by
        obtain ⟨h1, h2⟩ := hb
        omega
      have hbool : segInBounds audioLenMs s = true := by
        unfold segInBounds
        rw [decide_eq_true hb.1, decide_eq_true hb.2]
        rfl
      unfold SegmentAudioCleaner.keptSlices at ih ⊢
      simp only [List.filterMap_cons, List.filter_cons, hbool, if_true]
      simp [hcond]
      simpa using ih
    · have hcond : pyInt (s.start * 1000) ≥ audioLenMs
          ∨ pyInt (s.«end» * 1000) > audioLenMs := by
        by_contra hc
        push_neg at hc
        exact hb ⟨by omega, by omega⟩
      have hbool : segInBounds audioLenMs s = false := by
        simp only [segInBounds, Bool.and_eq_false_iff, decide_eq_false_iff_not, not_lt, not_le]
        omega
      unfold SegmentAudioCleaner.keptSlices at ih ⊢
      simp only [List.filterMap_cons, List.filter_cons, hbool]
      simp [hcond]
      simpa using ih

/-- C6 amended: only the audio-cleaning stage performs the boundary skip.
Its cutting loop keeps exactly the in-bounds segments (truncated start
millisecond below the audio length, truncated end millisecond at most the
audio length), every kept slice is in bounds, the exported length is the
sum over the kept segments only (the run completes for them), and the
video-cutting stage builds one ffmpeg trim command per segment with no
bounds check at all. -/
theorem boundary_skip_audio_only (audioLenMs : Int) (segs : List Segment) :
    (∀ p ∈ SegmentAudioCleaner.keptSlices audioLenMs segs,
        p.1 < audioLenMs ∧ p.2 ≤ audioLenMs)
  ∧ SegmentAudioCleaner.keptSlices audioLenMs segs
      = (segs.filter (segInBounds audioLenMs)).map
          (fun s => (pyInt (s.start * 1000), pyInt (s.«end» * 1000)))
  ∧ SegmentAudioCleaner.cleanedLenMs audioLenMs segs
      = ((segs.filter (segInBounds audioLenMs)).map
          (fun s => pyInt (s.«end» * 1000) - pyInt (s.start * 1000))).sum
  ∧ (VideoSegmentEditor.trimCommands segs).length = segs.length := by
  refine ⟨?_, keptSlices_eq_filter audioLenMs segs, ?_, ?_⟩
  · intro p hp
    rw [keptSlices_eq_filter] at hp
    simp only [List.mem_map, List.mem_filter] at hp
    obtain ⟨s, ⟨_, hin⟩, rfl⟩ := hp
    simp only [segInBounds, Bool.and_eq_true, decide_eq_true_eq] at hin
    exact hin
  · rw [SegmentAudioCleaner.cleanedLenMs, keptSlices_eq_filter, List.map_map]
    rfl
  · simp [VideoSegmentEditor.trimCommands]

/-- Closed instantiation of the C6 amendment: with 10000 ms of audio and
segments (0,2) and (5,20), the audio cleaner keeps only the in-bounds
slice (0 ms, 2000 ms) and it satisfies the bounds. -/
theorem boundary_skip_audio_only_witness :
    SegmentAudioCleaner.keptSlices 10000 [⟨0, 2⟩, ⟨5, 20⟩] = [(0, 2000)]
  ∧ ((0 : Int), (2000 : Int)).1 < 10000 ∧ ((0 : Int), (2000 : Int)).2 ≤ 10000 := by
  have hk : SegmentAudioCleaner.keptSlices 10000 [⟨0, 2⟩, ⟨5, 20⟩] = [(0, 2000)] := by
    norm_num [SegmentAudioCleaner.keptSlices, List.filterMap_cons, pyInt]
  refine ⟨hk, ?_⟩
  have h := (boundary_skip_audio_only 10000 [⟨0, 2⟩, ⟨5, 20⟩]).1 (0, 2000) (by rw [hk]; exact List.mem_singleton.mpr rfl)
  exact h

/-- C6 counterexample: the video cutter does not skip an out-of-bounds
segment. With a 10-second source, segment (5,20) lies partially outside
the source duration, yet run_ffmpeg_trim still builds a trim command for
it (-ss 5, -t 15) as the second of two commands; no segment is ever
dropped during video cutting. -/
theorem video_cutter_no_boundary_skip :
    VideoSegmentEditor.trimCommands [⟨0, 2⟩, ⟨5, 20⟩] = [⟨0, 2⟩, ⟨5, 15⟩]
  ∧ (VideoSegmentEditor.trimCommands [⟨0, 2⟩, ⟨5, 20⟩]).length = 2 := by
  constructor
  · norm_num [VideoSegmentEditor.trimCommands]
  · rfl

theorem call_llm_api_ok (maxRetries : Nat) (oracle : Nat → Except String String)
    (n : Nat) (s : String) :
    ∀ (r : Nat), r + n ≤ maxRetries →
    (∀ k, k < n → ∃ e, oracle (r + k) = .error e) →
    oracle (r + n) = .ok s →
    call_llm_api maxRetries oracle r =
      ⟨.ok s, n + 1, (List.range n).map fun t => 2 ^ (r + t)⟩ := by
  induction n with
  | zero =>
    intro r _ _ hok
    have h0 : oracle r = .ok s := by simpa using hok
    simp [call_llm_api, h0]
  | succ m ih =>
    intro r hle hfail hok
    obtain ⟨e, he⟩ := hfail 0 (Nat.succ_pos m)
    have he' : oracle r = .error e := by simpa using he
    have hlt : r < maxRetries := by omega
    have hrec := ih (r + 1) (by omega)
      (fun k hk => by
        rw [show r + 1 + k = r + (k + 1) from by omega]
        exact hfail (k + 1) (by omega))
      (by rw [show r + 1 + m = r + (m + 1) from by omega]; exact hok)
    rw [call_llm_api, he']
    simp only [hlt, if_pos]
    rw [hrec]
    simp [List.range_succ_eq_map, List.map_map, Function.comp]
    intro a _
    omega

theorem call_llm_api_all_fail (maxRetries : Nat) (oracle : Nat → Except String String)
    (err : Nat → String)
    (hfail : ∀ k, k ≤ maxRetries → oracle k = .error (err k)) :
    ∀ (d r : Nat), r ≤ maxRetries → maxRetries - r = d →
    call_llm_api maxRetries oracle r =
      ⟨.error ("Failed to call LLM API after " ++ toString maxRetries
        ++ " retries: " ++ err maxRetries),
       d + 1, (List.range d).map fun t => 2 ^ (r + t)⟩ := by
  intro d
  induction d with
  | zero =>
    intro r hr hd
    have hrm : r = maxRetries := by omega
    subst hrm
    rw [call_llm_api, hfail r (le_refl r)]
    simp
  | succ m ih =>
    intro r hr hd
    have hlt : r < maxRetries := by omega
    rw [call_llm_api, hfail r (by omega)]
    simp only [hlt, if_pos]
    rw [ih (r + 1) (by omega) (by omega)]
    simp [List.range_succ_eq_map, List.map_map, Function.comp]
    intro a _
    omega

/-- C4 amended: the retry loop of the text-cleaning call. A call whose
request fails transiently on the first n attempts (n at most max_retries)
and succeeds on attempt n returns the successful response after n + 1
attempts, sleeping 2^attempt seconds between consecutive attempts; a call
whose request fails on every attempt returns a permanent RuntimeError
wrapping the last underlying error after exactly max_retries + 1 attempts
(the initial attempt plus max_retries retries), not max_retries. -/
theorem llm_retry_policy (maxRetries : Nat) (oracle : Nat → Except String String) :
    (∀ (n : Nat) (s : String), n ≤ maxRetries →
       (∀ k, k < n → ∃ e, oracle k = .error e) → oracle n = .ok s →
       call_llm_api maxRetries oracle 0 =
         ⟨.ok s, n + 1, (List.range n).map fun t => 2 ^ t⟩)
  ∧ (∀ err : Nat → String, (∀ k, k ≤ maxRetries → oracle k = .error (err k)) →
       call_llm_api maxRetries oracle 0 =
         ⟨.error ("Failed to call LLM API after " ++ toString maxRetries
            ++ " retries: " ++ err maxRetries),
          maxRetries + 1, (List.range maxRetries).map fun t => 2 ^ t⟩) := by
  constructor
  · intro n s hn hf hok
    have h := call_llm_api_ok maxRetries oracle n s 0 (by omega)
      (fun k hk => by simpa using hf k hk) (by simpa using hok)
    simpa using h
  · intro err hf
    have h := call_llm_api_all_fail maxRetries oracle err hf maxRetries 0 (by omega) (by omega)
    simpa using h

/-- Closed instantiation of the C4 amendment: with max_retries = 2 and an
oracle failing once then succeeding, the call returns the success after
two attempts with one 1-second sleep. -/
theorem llm_retry_policy_witness :
    call_llm_api 2 witOracle 0 = ⟨.ok "cleaned text", 2, [1]⟩ := by
  have h := (llm_retry_policy 2 witOracle).1 1 "cleaned text" (by omega)
    (fun k hk => ⟨"connection refused", by
      have hk0 : k = 0 := by omega
      subst hk0
      rfl⟩)
    (by rfl)
  rw [h]
  norm_num [List.range_succ]

/-- C4 counterexample: with max_retries = 3 and a request that fails on
every attempt, call_llm_api makes 4 attempts (the initial attempt plus 3
retries) before raising the permanent failure, not exactly 3 attempts as
claimed. -/
theorem llm_retry_attempt_count :
    (call_llm_api 3 (fun _ => .error "boom") 0).attempts = 4
  ∧ (call_llm_api 3 (fun _ => .error "boom") 0).result
      = .error "Failed to call LLM API after 3 retries: boom"
  ∧ (4 : Nat) ≠ 3 := by
  have h := call_llm_api_all_fail 3 (fun _ => .error "boom") (fun _ => "boom")
    (fun k _ => rfl) 3 0 (by omega) (by omega)
  rw [h]
  exact ⟨rfl, rfl, by decide⟩

/-- C8 counterexample: for the NTSC frame rate 30000/1001, the emitted
frame duration 3336/100000 s differs from the exact reciprocal
1001/30000 s of the frame rate. -/
theorem frame_duration_not_reciprocal :
    frameDurationInt ⟨1920, 1080, 30000, 1001⟩ = 3336
  ∧ frameDurationQ ⟨1920, 1080, 30000, 1001⟩
      ≠ 1 / frame_rate ⟨1920, 1080, 30000, 1001⟩ := by
  constructor
  · norm_num [frameDurationInt, pyInt, frame_rate]
  · norm_num [frameDurationQ, frameDurationInt, pyInt, frame_rate]

/-- C8 amended: the frame duration written into the timeline document is
the reciprocal of the source frame rate truncated down to a whole
multiple of 1/100000 s: it never exceeds the exact reciprocal, falls
short of it by less than 1/100000 s, and equals it exactly when the
frame-rate numerator divides 100000 times the denominator (for example
for every integer frame rate dividing 100000); the attribute emitted into
the format record is the corresponding "int/100000s" string. -/
theorem frame_duration_truncated (m : VideoMeta)
    (hn : 0 < m.rateNum) (hd : 0 < m.rateDen) :
    frameDurationQ m ≤ 1 / frame_rate m
  ∧ 1 / frame_rate m - frameDurationQ m < 1 / 100000
  ∧ (frameDurationQ m = 1 / frame_rate m ↔ m.rateNum ∣ 100000 * m.rateDen)
  ∧ (∀ (segs : List Segment) (mediaId videoPath : String),
      formatFrameDurationAttr (create_fcpxml segs m mediaId videoPath)
        = some (toString (frameDurationInt m) ++ "/100000s")) := by
  have hnq : ((m.rateNum : Rat)) ≠ 0 := by
    exact_mod_cast hn.ne'
  have hdq : ((m.rateDen : Rat)) ≠ 0 := by
    exact_mod_cast hd.ne'
  have hfr : 1 / frame_rate m = (m.rateDen : Rat) / (m.rateNum : Rat) := by
    rw [frame_rate, one_div_div]
  set x : Rat := (1 / frame_rate m) * 100000 with hxdef
  have hx0 : 0 ≤ x := by
    rw [hxdef, hfr]
    positivity
  have hpy : pyInt x = ⌊x⌋ := by
    rw [pyInt, if_pos hx0]
  have hfdi : frameDurationInt m = ⌊x⌋ := by
    rw [frameDurationInt, ← hxdef, hpy]
  have hfdq : frameDurationQ m = (⌊x⌋ : Rat) / 100000 := by
    rw [frameDurationQ, hfdi]
  have hrecip : 1 / frame_rate m = x / 100000 := by
    rw [hxdef, mul_div_assoc]
    norm_num
  refine ⟨?_, ?_, ?_, fun _ _ _ => rfl⟩
  · rw [hfdq, hrecip]
    have := Int.floor_le x
    linarith
  · rw [hfdq, hrecip]
    have := Int.lt_floor_add_one x
    linarith
  · rw [hfdq, hrecip]
    have hxval : x = ((100000 * m.rateDen : Int) : Rat) / ((m.rateNum : Int) : Rat) := by
      rw [hxdef, hfr]
      push_cast
      field_simp
      ring
    constructor
    · intro h
      have hqx : (⌊x⌋ : Rat) = x := by
        field_simp at h
        exact_mod_cast h
      have hmul : ((m.rateNum : Rat)) * (⌊x⌋ : Rat) = ((100000 * m.rateDen : Int) : Rat) := by
        rw [hqx, hxval]
        field_simp
      have hint : m.rateNum * ⌊x⌋ = 100000 * m.rateDen := by
        exact_mod_cast hmul
      exact ⟨⌊x⌋, hint.symm⟩
    · rintro ⟨c, hc⟩
      have hxc : x = (c : Rat) := by
        rw [hxval, hc]
        push_cast
        field_simp
      have hfloor : ⌊x⌋ = c := by
        rw [hxc, Int.floor_intCast]
      rw [hfloor, hxc]

/-- Closed instantiation of the C8 amendment at an exact frame rate: for
25 fps the emitted frame duration equals the exact reciprocal 1/25 s,
since 25 divides 100000. -/
theorem frame_duration_truncated_witness :
    frameDurationQ ⟨1920, 1080, 25, 1⟩ = 1 / frame_rate ⟨1920, 1080, 25, 1⟩ := by
  have h := (frame_duration_truncated ⟨1920, 1080, 25, 1⟩ (by decide) (by decide)).2.2.1
  exact h.mpr (by decide)

/-- C5: the transcriber stage runner isolates per-item failures. Over any
discovered item sequence, every item is processed (one decision entry per
item), each item's result depends only on its own environment, a
successful item records a "success" decision with its transcript written,
a failing item records an entry carrying the error description with no
output, a missing input artifact fails with the NotFound description, and
a stage with zero eligible inputs is a no-op. -/
theorem stage_runner_isolation (envs : List TranscribeEnv) :
    (TranscriberAgent.run envs).length = envs.length
  ∧ (∀ (i : Nat) (env : TranscribeEnv), envs[i]? = some env →
      (TranscriberAgent.run envs)[i]? = some (TranscriberAgent.process_file env))
  ∧ (∀ (env : TranscribeEnv) (t : PyVal),
      TranscriberAgent.process_file_body env = .ok t →
      (TranscriberAgent.process_file env).log = ⟨env.fileName, "transcribe", "success"⟩
      ∧ (TranscriberAgent.process_file env).output = some t)
  ∧ (∀ (env : TranscribeEnv) (e : PyErr),
      TranscriberAgent.process_file_body env = .error e →
      (TranscriberAgent.process_file env).log
        = ⟨env.fileName, "transcribe", exceptDecision e⟩
      ∧ (TranscriberAgent.process_file env).output = Option.none)
  ∧ (∀ env : TranscribeEnv, env.audioExists = false →
      TranscriberAgent.process_file_body env
        = .error (.fileNotFound ("Cleaned audio file not found: " ++ env.fileName)))
  ∧ TranscriberAgent.run [] = [] := by
  refine ⟨by simp [TranscriberAgent.run], ?_, ?_, ?_, ?_, rfl⟩
  · intro i env h
    simp [TranscriberAgent.run, List.getElem?_map, h]
  · intro env t h
    unfold TranscriberAgent.process_file
    rw [h]
    exact ⟨rfl, rfl⟩
  · intro env e h
    unfold TranscriberAgent.process_file
    rw [h]
    exact ⟨rfl, rfl⟩
  · intro env h
    unfold TranscriberAgent.process_file_body
    rw [h]
    rfl

/-- Closed instantiation of C5 on the spec's three-item example: items
one and three succeed with "success" decisions, item two's missing input
yields a NotFound decision with no transcript written, and the empty
stage is a no-op. -/
theorem stage_runner_isolation_witness :
    (TranscriberAgent.process_file itemOne).log = ⟨"one.mp4", "transcribe", "success"⟩
  ∧ (TranscriberAgent.process_file itemTwo).log
      = ⟨"two.mp4", "transcribe", "File not found: Cleaned audio file not found: two.mp4"⟩
  ∧ (TranscriberAgent.process_file itemTwo).output = Option.none
  ∧ (TranscriberAgent.process_file itemThree).log
      = ⟨"three.mp4", "transcribe", "success"⟩
  ∧ TranscriberAgent.run [] = [] := by
  refine ⟨?_, ?_, ?_, ?_, (stage_runner_isolation []).2.2.2.2.2⟩
  · exact ((stage_runner_isolation [itemOne]).2.2.1 itemOne validTranscriptVal rfl).1
  · exact ((stage_runner_isolation [itemTwo]).2.2.2.1 itemTwo
      (.fileNotFound "Cleaned audio file not found: two.mp4") rfl).1
  · exact ((stage_runner_isolation [itemTwo]).2.2.2.1 itemTwo
      (.fileNotFound "Cleaned audio file not found: two.mp4") rfl).2
  · exact ((stage_runner_isolation [itemThree]).2.2.1 itemThree validTranscriptVal rfl).1

theorem cleanSegments_ok_spec (llm : Nat → Except String String) :
    ∀ (segs : List PyVal) (j : Nat) (out : List PyVal),
      cleanSegments llm j segs = .ok out →
      out.length = segs.length
      ∧ (∀ (i : Nat) (seg : PyVal), segs[i]? = some seg →
          ∃ t, llm (j + i) = .ok t ∧ out[i]? = some (setText seg t)) := by
  intro segs
  induction segs with
  | nil =>
    intro j out h
    simp [cleanSegments] at h
    subst h
    exact ⟨rfl, by intro i seg hs; simp at hs⟩
  | cons seg rest ih =>
    intro j out h
    unfold cleanSegments at h
    cases hl : llm j with
    | error e => rw [hl] at h; simp at h
    | ok t =>
      rw [hl] at h
      cases hr : cleanSegments llm (j + 1) rest with
      | error e => rw [hr] at h; simp at h
      | ok rest' =>
        rw [hr] at h
        simp only [Except.ok.injEq] at h
        subst h
        obtain ⟨hlen, hspec⟩ := ih (j + 1) rest' hr
        refine ⟨by simp [hlen], ?_⟩
        intro i sg hs
        cases i with
        | zero =>
          simp only [List.getElem?_cons_zero, Option.some.injEq] at hs
          subst hs
          exact ⟨t, by simpa using hl, by simp⟩
        | succ k =>
          simp only [List.getElem?_cons_succ] at hs
          obtain ⟨u, hu, ho⟩ := hspec k sg hs
          refine ⟨u, ?_, by simpa using ho⟩
          rw [show j + (k + 1) = j + 1 + k from by omega]
          exact hu

theorem cleanSegments_all_ok (llm : Nat → Except String String) :
    ∀ (segs : List PyVal) (j : Nat),
      (∀ i, i < segs.length → ∃ s, llm (j + i) = .ok s) →
      ∃ out, cleanSegments llm j segs = .ok out := by
  intro segs
  induction segs with
  | nil => exact fun j _ => ⟨[], rfl⟩
  | cons seg rest ih =>
    intro j h
    obtain ⟨t, ht⟩ := by simpa using h 0 (by simp)
    obtain ⟨out, hout⟩ := ih (j + 1)
      (fun i hi => by
        rw [show j + 1 + i = j + (i + 1) from by omega]
        exact h (i + 1) (by simpa using hi))
    exact ⟨setText seg t :: out, by unfold cleanSegments; rw [ht, hout]⟩

theorem cleanSegments_fails (llm : Nat → Except String String) :
    ∀ (segs : List PyVal) (j : Nat),
      (∃ i, i < segs.length ∧ ∃ msg, llm (j + i) = .error msg) →
      ∃ e, cleanSegments llm j segs = .error e := by
  intro segs
  induction segs with
  | nil =>
    intro j h
    obtain ⟨i, hi, _⟩ := h
    simp at hi
  | cons seg rest ih =>
    intro j h
    cases hl : llm j with
    | error e => exact ⟨.runtimeError e, by unfold cleanSegments; rw [hl]⟩
    | ok t =>
      obtain ⟨i, hi, msg, hmsg⟩ := h
      cases i with
      | zero =>
        rw [show j + 0 = j from rfl, hl] at hmsg
        cases hmsg
      | succ k =>
        obtain ⟨e, he⟩ := ih (j + 1)
          ⟨k, by simpa using hi, msg, by
            rw [show j + 1 + k = j + (k + 1) from by omega]
            exact hmsg⟩
        exact ⟨e, by unfold cleanSegments; rw [hl, he]⟩

/-- C9: the text-cleaning stage processes one item atomically. Each
segment's text is cleaned by its own call (segment i uses attempt-oracle
index i, and on success the output pairs each segment with its own call's
result); if any segment's call ultimately fails, the item aborts with an
error decision and no output transcript is persisted; only when every
segment's call succeeds is the fully cleaned transcript written, with a
"success" decision. -/
theorem editor_atomic_item (env : EditorEnv) (kvs : List (String × PyVal))
    (segs : List PyVal)
    (hjson : env.transcriptJson = .dict kvs)
    (hsegs : dLookup kvs "segments" = some (.list segs)) :
    ((∃ i, i < segs.length ∧ ∃ msg, env.llm i = .error msg) →
      (LLMEditingAgent.process_file env).output = Option.none)
  ∧ (∀ e : PyErr, LLMEditingAgent.process_file_body env = .error e →
      (LLMEditingAgent.process_file env).output = Option.none
      ∧ (LLMEditingAgent.process_file env).log
          = ⟨env.fileName, "llm_editing", exceptDecision e⟩)
  ∧ (env.inputExists = true →
      LLMEditingAgent.validate_transcript env.transcriptJson = .ok true →
      (∀ i, i < segs.length → ∃ s, env.llm i = .ok s) →
      ∃ out, cleanSegments env.llm 0 segs = .ok out
        ∧ LLMEditingAgent.process_file env
            = ⟨⟨env.fileName, "llm_editing", "success"⟩,
               some (.dict (setKey kvs "segments" (.list out)))⟩
        ∧ (∀ (i : Nat) (seg : PyVal), segs[i]? = some seg →
            ∃ t, env.llm i = .ok t ∧ out[i]? = some (setText seg t))) := by
  refine ⟨?_, ?_, ?_⟩
  · intro hfail
    obtain ⟨e, he⟩ := cleanSegments_fails env.llm segs 0
      (by obtain ⟨i, hi, msg, hm⟩ := hfail; exact ⟨i, hi, msg, by simpa using hm⟩)
    unfold LLMEditingAgent.process_file
    cases hb : LLMEditingAgent.process_file_body env with
    | error e2 => rfl
    | ok t =>
      exfalso
      unfold LLMEditingAgent.process_file_body at hb
      by_cases hin : env.inputExists
      · rw [hin] at hb
        simp only [Bool.not_true, Bool.false_eq_true, if_false] at hb
        cases hv : LLMEditingAgent.validate_transcript env.transcriptJson with
        | error e3 => rw [hv] at hb; cases hb
        | ok b =>
          rw [hv] at hb
          cases b with
          | false => cases hb
          | true =>
            rw [hjson] at hb
            simp [hsegs, he] at hb
      · have hin' : env.inputExists = false := by
          cases hx : env.inputExists
          · rfl
          · exact absurd hx hin
        rw [hin'] at hb
        cases hb
  · intro e h
    unfold LLMEditingAgent.process_file
    rw [h]
    exact ⟨rfl, rfl⟩
  · intro hin hv hall
    obtain ⟨out, hout⟩ := cleanSegments_all_ok env.llm segs 0
      (fun i hi => by simpa using hall i hi)
    refine ⟨out, hout, ?_, ?_⟩
    · unfold LLMEditingAgent.process_file LLMEditingAgent.process_file_body
      rw [hin]
      simp only [Bool.not_true, Bool.false_eq_true, if_false]
      have hv2 : LLMEditingAgent.validate_transcript (PyVal.dict kvs) = Except.ok true := by
        rw [← hjson]
        exact hv
      simp only [hv2, hjson, hsegs, hout]
    · intro i seg hs
      obtain ⟨t, ht, ho⟩ := (cleanSegments_ok_spec env.llm segs 0 out hout).2 i seg hs
      exact ⟨t, by simpa using ht, ho⟩

/-- Closed instantiation of C9: for a two-segment item whose second
segment's call fails after retries, no output transcript is written. -/
theorem editor_atomic_item_witness :
    (LLMEditingAgent.process_file editorEnvFail).output = Option.none := by
  have h := (editor_atomic_item editorEnvFail
    [("segments", .list
      [.dict [("start", .float 0), ("end", .float 2), ("text", .str "first")],
       .dict [("start", .float 3), ("end", .float 5), ("text", .str "second")]])]
    [.dict [("start", .float 0), ("end", .float 2), ("text", .str "first")],
     .dict [("start", .float 3), ("end", .float 5), ("text", .str "second")]]
    rfl rfl).1
  exact h ⟨1, by simp, "service gone", rfl⟩

theorem checkSegmentCore_of_specValid (s : PyVal) (h : specValidSegment s = true) :
    checkSegmentCore s = .ok true := by
  cases s with
  | dict kvs =>
    simp only [specValidSegment] at h
    cases hs : dLookup kvs "start" with
    | none => rw [hs] at h; simp at h
    | some sv =>
      cases he : dLookup kvs "end" with
      | none => rw [hs, he] at h; simp at h
      | some ev =>
        cases ht : dLookup kvs "text" with
        | none => rw [hs, he, ht] at h; simp at h
        | some tv =>
          rw [hs, he, ht] at h
          simp only [Bool.and_eq_true, decide_eq_true_eq] at h
          obtain ⟨⟨⟨hnums, hnume⟩, hlt⟩, _⟩ := h
          simp [checkSegmentCore, allKeysIn, pyContains, pySubscript, hs, he, ht,
            Bind.bind, Except.instMonad, Except.bind, Pure.pure, Except.pure,
            hnums, hnume, not_le.mpr hlt]
  | none => simp [specValidSegment] at h
  | bool b => simp [specValidSegment] at h
  | int n => simp [specValidSegment] at h
  | float q => simp [specValidSegment] at h
  | str s => simp [specValidSegment] at h
  | list xs => simp [specValidSegment] at h

theorem checkSegmentFull_of_specValid (s : PyVal) (h : specValidSegment s = true) :
    checkSegmentFull s = .ok true := by
  have hcore := checkSegmentCore_of_specValid s h
  cases s with
  | dict kvs =>
    simp only [specValidSegment] at h
    cases hs : dLookup kvs "start" with
    | none => rw [hs] at h; simp at h
    | some sv =>
      cases he : dLookup kvs "end" with
      | none => rw [hs, he] at h; simp at h
      | some ev =>
        cases ht : dLookup kvs "text" with
        | none => rw [hs, he, ht] at h; simp at h
        | some tv =>
          rw [hs, he, ht] at h
          simp only [Bool.and_eq_true, decide_eq_true_eq] at h
          obtain ⟨_, htxt⟩ := h
          cases tv with
          | str txt =>
            simp only at htxt
            simp [checkSegmentFull, hcore, pySubscript, ht,
              Bind.bind, Except.instMonad, Except.bind, Pure.pure, Except.pure, htxt]
          | none => simp at htxt
          | bool b => simp at htxt
          | int n => simp at htxt
          | float q => simp at htxt
          | list xs => simp at htxt
          | dict kvs2 => simp at htxt
  | none => simp [specValidSegment] at h
  | bool b => simp [specValidSegment] at h
  | int n => simp [specValidSegment] at h
  | float q => simp [specValidSegment] at h
  | str s => simp [specValidSegment] at h
  | list xs => simp [specValidSegment] at h

theorem validateSegments_of_all (check : PyVal → Except PyErr Bool)
    (segs : List PyVal) (h : ∀ s ∈ segs, check s = .ok true) :
    validateSegments check segs = .ok true := by
  induction segs with
  | nil => rfl
  | cons s rest ih =>
    have hs := h s (List.mem_cons_self s rest)
    have hr := ih fun x hx => h x (List.mem_cons_of_mem s hx)
    simp [validateSegments, hs, hr,
      Bind.bind, Except.instMonad, Except.bind, Pure.pure, Except.pure]

theorem validateShape_of_specValid (flag : Bool) (check : PyVal → Except PyErr Bool)
    (hcheck : ∀ s : PyVal, specValidSegment s = true → check s = .ok true)
    (t : PyVal) (h : specValidTranscript t = true) :
    validateShape flag check t = .ok true := by
  cases t with
  | dict kvs =>
    simp only [specValidTranscript] at h
    cases hseg : dLookup kvs "segments" with
    | none => rw [hseg] at h; simp at h
    | some sv =>
      rw [hseg] at h
      cases sv with
      | list segs =>
        simp only [Bool.and_eq_true, Bool.not_eq_true', List.all_eq_true] at h
        obtain ⟨hne, hall⟩ := h
        simp only [validateShape, hseg, hne, Bool.and_false, if_false]
        exact validateSegments_of_all check segs fun s hs => hcheck s (hall s hs)
      | none => simp at h
      | bool b => simp at h
      | int n => simp at h
      | float q => simp at h
      | str s => simp at h
      | dict kvs2 => simp at h
  | none => simp [specValidTranscript] at h
  | bool b => simp [specValidTranscript] at h
  | int n => simp [specValidTranscript] at h
  | float q => simp [specValidTranscript] at h
  | str s => simp [specValidTranscript] at h
  | list xs => simp [specValidTranscript] at h

/-- C2 amended: every transcript satisfying the seven §4.1 conditions is
accepted by all five stage validators. Of the seven violation classes,
classes 1, 2, 4, 5, 6 (not a record, segments not a sequence, missing
keys, non-numeric bounds, end not past start) are rejected by every
validator; the empty-sequence class 3 is rejected by the transcriber,
text-cleaning, and timeline validators but ACCEPTED by the audio-cleaner
and video-cutter validators, which omit the non-empty check; the
blank-text class 7 is rejected by the transcriber variant only, as the
claim itself states. -/
theorem validator_seven_conditions :
    (∀ t : PyVal, specValidTranscript t = true →
       TranscriberAgent.validate_transcript t = .ok true
     ∧ LLMEditingAgent.validate_transcript t = .ok true
     ∧ TimelineGenerator.validate_transcript t = .ok true
     ∧ SegmentAudioCleaner.validate_transcript t = .ok true
     ∧ VideoSegmentEditor.validate_transcript t = .ok true)
  ∧ (∀ v ∈ [violNotRecord, violSegmentsNotList, violMissingKeys,
        violNonNumeric, violBadOrder],
       TranscriberAgent.validate_transcript v = .ok false
     ∧ LLMEditingAgent.validate_transcript v = .ok false
     ∧ TimelineGenerator.validate_transcript v = .ok false
     ∧ SegmentAudioCleaner.validate_transcript v = .ok false
     ∧ VideoSegmentEditor.validate_transcript v = .ok false)
  ∧ (TranscriberAgent.validate_transcript violEmptySegments = .ok false
     ∧ LLMEditingAgent.validate_transcript violEmptySegments = .ok false
     ∧ TimelineGenerator.validate_transcript violEmptySegments = .ok false
     ∧ SegmentAudioCleaner.validate_transcript violEmptySegments = .ok true
     ∧ VideoSegmentEditor.validate_transcript violEmptySegments = .ok true)
  ∧ (TranscriberAgent.validate_transcript violBlankText = .ok false
     ∧ LLMEditingAgent.validate_transcript violBlankText = .ok true
     ∧ TimelineGenerator.validate_transcript violBlankText = .ok true
     ∧ SegmentAudioCleaner.validate_transcript violBlankText = .ok true
     ∧ VideoSegmentEditor.validate_transcript violBlankText = .ok true) := by
  refine ⟨?_, by decide, by decide, by decide⟩
  intro t h
  exact ⟨validateShape_of_specValid true checkSegmentFull checkSegmentFull_of_specValid t h,
    validateShape_of_specValid true checkSegmentCore checkSegmentCore_of_specValid t h,
    validateShape_of_specValid true checkSegmentCore checkSegmentCore_of_specValid t h,
    validateShape_of_specValid false checkSegmentCore checkSegmentCore_of_specValid t h,
    validateShape_of_specValid false checkSegmentCore checkSegmentCore_of_specValid t h⟩

/-- Closed instantiation of the C2 amendment: the one-segment valid
transcript satisfies the seven conditions and both a strict and a lax
validator accept it. -/
theorem validator_seven_conditions_witness :
    specValidTranscript validTranscriptVal = true
  ∧ TranscriberAgent.validate_transcript validTranscriptVal = .ok true
  ∧ SegmentAudioCleaner.validate_transcript validTranscriptVal = .ok true := by
  refine ⟨by decide, ?_, ?_⟩
  · exact (validator_seven_conditions.1 validTranscriptVal (by decide)).1
  · exact (validator_seven_conditions.1 validTranscriptVal (by decide)).2.2.2.1

/-- C2 counterexample: the minimal empty-sequence violation
`{"segments": []}` is ACCEPTED (returns true) by the audio-cleaner and
video-cutter stage validators, so it does not return false for the
validator of every stage as claimed. -/
theorem empty_segments_accepted :
    SegmentAudioCleaner.validate_transcript violEmptySegments = .ok true
  ∧ VideoSegmentEditor.validate_transcript violEmptySegments = .ok true
  ∧ Except.ok true ≠ (Except.ok false : Except PyErr Bool) :=
  ⟨by decide, by decide, by decide⟩

theorem checkSegmentCore_dict_total (kvs : List (String × PyVal)) :
    ∃ b, checkSegmentCore (.dict kvs) = .ok b := by
  cases hs : dLookup kvs "start" with
  | none =>
    exact ⟨false, by simp [checkSegmentCore, allKeysIn, pyContains, hs,
      Bind.bind, Except.instMonad, Except.bind, Pure.pure, Except.pure]⟩
  | some sv =>
    cases he : dLookup kvs "end" with
    | none =>
      exact ⟨false, by simp [checkSegmentCore, allKeysIn, pyContains, hs, he,
        Bind.bind, Except.instMonad, Except.bind, Pure.pure, Except.pure]⟩
    | some ev =>
      cases ht : dLookup kvs "text" with
      | none =>
        exact ⟨false, by simp [checkSegmentCore, allKeysIn, pyContains, hs, he, ht,
          Bind.bind, Except.instMonad, Except.bind, Pure.pure, Except.pure]⟩
      | some tv =>
        by_cases hns : isNumeric sv = true
        · by_cases hne : isNumeric ev = true
          · by_cases hle : toRat ev ≤ toRat sv
            · exact ⟨false, by simp [checkSegmentCore, allKeysIn, pyContains, pySubscript,
                hs, he, ht, hns, hne, hle,
                Bind.bind, Except.instMonad, Except.bind, Pure.pure, Except.pure]⟩
            · exact ⟨true, by simp [checkSegmentCore, allKeysIn, pyContains, pySubscript,
                hs, he, ht, hns, hne, hle,
                Bind.bind, Except.instMonad, Except.bind, Pure.pure, Except.pure]⟩
          · exact ⟨false, by simp [checkSegmentCore, allKeysIn, pyContains, pySubscript,
              hs, he, ht, hns, hne,
              Bind.bind, Except.instMonad, Except.bind, Pure.pure, Except.pure]⟩
        · exact ⟨false, by simp [checkSegmentCore, allKeysIn, pyContains, pySubscript,
            hs, he, ht, hns,
            Bind.bind, Except.instMonad, Except.bind, Pure.pure, Except.pure]⟩

theorem checkSegmentFull_dict_total (kvs : List (String × PyVal)) :
    ∃ b, checkSegmentFull (.dict kvs) = .ok b := by
  obtain ⟨b, hb⟩ := checkSegmentCore_dict_total kvs
  cases b with
  | false =>
    exact ⟨false, by simp [checkSegmentFull, hb,
      Bind.bind, Except.instMonad, Except.bind, Pure.pure, Except.pure]⟩
  | true =>
    cases ht : dLookup kvs "text" with
    | none =>
      refine ⟨false, ?_⟩
      exfalso
      revert hb
      simp [checkSegmentCore, allKeysIn, pyContains, ht,
        Bind.bind, Except.instMonad, Except.bind, Pure.pure, Except.pure]
    | some tv =>
      cases tv with
      | str txt =>
        by_cases hst : stripTruthy txt = true
        · exact ⟨true, by simp [checkSegmentFull, hb, pySubscript, ht, hst,
            Bind.bind, Except.instMonad, Except.bind, Pure.pure, Except.pure]⟩
        · exact ⟨false, by simp [checkSegmentFull, hb, pySubscript, ht, hst,
            Bind.bind, Except.instMonad, Except.bind, Pure.pure, Except.pure]⟩
      | none => exact ⟨false, by simp [checkSegmentFull, hb, pySubscript, ht,
          Bind.bind, Except.instMonad, Except.bind, Pure.pure, Except.pure]⟩
      | bool b2 => exact ⟨false, by simp [checkSegmentFull, hb, pySubscript, ht,
          Bind.bind, Except.instMonad, Except.bind, Pure.pure, Except.pure]⟩
      | int n => exact ⟨false, by simp [checkSegmentFull, hb, pySubscript, ht,
          Bind.bind, Except.instMonad, Except.bind, Pure.pure, Except.pure]⟩
      | float q => exact ⟨false, by simp [checkSegmentFull, hb, pySubscript, ht,
          Bind.bind, Except.instMonad, Except.bind, Pure.pure, Except.pure]⟩
      | list xs => exact ⟨false, by simp [checkSegmentFull, hb, pySubscript, ht,
          Bind.bind, Except.instMonad, Except.bind, Pure.pure, Except.pure]⟩
      | dict kvs2 => exact ⟨false, by simp [checkSegmentFull, hb, pySubscript, ht,
          Bind.bind, Except.instMonad, Except.bind, Pure.pure, Except.pure]⟩

theorem validateSegments_total (check : PyVal → Except PyErr Bool)
    (segs : List PyVal) (h : ∀ s ∈ segs, ∃ b, check s = .ok b) :
    ∃ b, validateSegments check segs = .ok b := by
  induction segs with
  | nil => exact ⟨true, rfl⟩
  | cons s rest ih =>
    obtain ⟨b, hb⟩ := h s (List.mem_cons_self s rest)
    cases b with
    | false =>
      exact ⟨false, by simp [validateSegments, hb,
        Bind.bind, Except.instMonad, Except.bind, Pure.pure, Except.pure]⟩
    | true =>
      obtain ⟨b2, hb2⟩ := ih fun x hx => h x (List.mem_cons_of_mem s hx)
      exact ⟨b2, by simp [validateSegments, hb, hb2,
        Bind.bind, Except.instMonad, Except.bind, Pure.pure, Except.pure]⟩

theorem validateShape_total (flag : Bool) (check : PyVal → Except PyErr Bool)
    (hcheck : ∀ kvs : List (String × PyVal), ∃ b, check (.dict kvs) = .ok b)
    (t : PyVal) (h : segmentsAllDicts t = true) :
    ∃ b, validateShape flag check t = .ok b := by
  cases t with
  | dict kvs =>
    cases hseg : dLookup kvs "segments" with
    | none => exact ⟨false, by simp [validateShape, hseg]⟩
    | some sv =>
      cases sv with
      | list segs =>
        simp only [segmentsAllDicts, hseg, List.all_eq_true] at h
        by_cases hif : (flag && segs.isEmpty) = true
        · exact ⟨false, by simp [validateShape, hseg, hif]⟩
        · have hv := validateSegments_total check segs fun s hs => by
            have hd := h s hs
            cases s with
            | dict kvs2 => exact hcheck kvs2
            | none => simp at hd
            | bool b => simp at hd
            | int n => simp at hd
            | float q => simp at hd
            | str s2 => simp at hd
            | list xs => simp at hd
          obtain ⟨b, hb⟩ := hv
          refine ⟨b, ?_⟩
          simp only [validateShape, hseg]
          rw [if_neg hif]
          exact hb
      | none => exact ⟨false, by simp [validateShape, hseg]⟩
      | bool b => exact ⟨false, by simp [validateShape, hseg]⟩
      | int n => exact ⟨false, by simp [validateShape, hseg]⟩
      | float q => exact ⟨false, by simp [validateShape, hseg]⟩
      | str s => exact ⟨false, by simp [validateShape, hseg]⟩
      | dict kvs2 => exact ⟨false, by simp [validateShape, hseg]⟩
  | none => exact ⟨false, rfl⟩
  | bool b => exact ⟨false, rfl⟩
  | int n => exact ⟨false, rfl⟩
  | float q => exact ⟨false, rfl⟩
  | str s => exact ⟨false, rfl⟩
  | list xs => exact ⟨false, rfl⟩

/-- C3 amended: for every input in which each element of the segments
sequence is a record (in particular whenever the top-level value is not a
record, the segments field is missing or not a sequence, or every segment
element is a record of any shape), all five validators terminate normally
with a definitive pass/fail verdict and raise nothing. The unrestricted
claim is false: a segments list holding a non-record element such as a
number makes the membership test raise TypeError. -/
theorem validators_never_raise_on_record_segments (t : PyVal)
    (h : segmentsAllDicts t = true) :
    (∃ b, TranscriberAgent.validate_transcript t = .ok b)
  ∧ (∃ b, LLMEditingAgent.validate_transcript t = .ok b)
  ∧ (∃ b, TimelineGenerator.validate_transcript t = .ok b)
  ∧ (∃ b, SegmentAudioCleaner.validate_transcript t = .ok b)
  ∧ (∃ b, VideoSegmentEditor.validate_transcript t = .ok b) :=
  ⟨validateShape_total true checkSegmentFull (fun kvs => checkSegmentFull_dict_total kvs) t h,
   validateShape_total true checkSegmentCore (fun kvs => checkSegmentCore_dict_total kvs) t h,
   validateShape_total true checkSegmentCore (fun kvs => checkSegmentCore_dict_total kvs) t h,
   validateShape_total false checkSegmentCore (fun kvs => checkSegmentCore_dict_total kvs) t h,
   validateShape_total false checkSegmentCore (fun kvs => checkSegmentCore_dict_total kvs) t h⟩

/-- Closed instantiation of the C3 amendment: a transcript whose only
segment is an empty record is within the raise-free fragment, and the
text-cleaning validator returns a definitive verdict on it. -/
theorem validators_never_raise_witness :
    segmentsAllDicts violMissingKeys = true
  ∧ (∃ b, LLMEditingAgent.validate_transcript violMissingKeys = .ok b) := by
  refine ⟨by decide, ?_⟩
  exact (validators_never_raise_on_record_segments violMissingKeys (by decide)).2.1

/-- C3 counterexample: on the input `{"segments": [0]}` the validators of
the text-cleaning, timeline, and transcriber stages all raise TypeError
(`"start" in 0` is a membership test on a non-container), so validate
does not return a definitive verdict for every input value. -/
theorem validate_raises_on_numeric_segment :
    LLMEditingAgent.validate_transcript numericSegmentTranscript
      = .error (.typeError "argument is not iterable")
  ∧ TimelineGenerator.validate_transcript numericSegmentTranscript
      = .error (.typeError "argument is not iterable")
  ∧ TranscriberAgent.validate_transcript numericSegmentTranscript
      = .error (.typeError "argument is not iterable") :=
  ⟨by decide, by decide, by decide⟩
